import Mathlib

/-!
Verification of the Lumina receipt-management repository
(frontend sources under `frontend/src`, backend transaction pipeline
specified in the design document).

Shallow embedding conventions:
* JavaScript numbers are modelled as `Rat` (monetary arithmetic) or `Nat`
  (HTTP status codes, counts, cents).
* A JavaScript value that may be `null`/`undefined`/absent is an `Option`.
* A promise that either resolves or rejects is an `Except`.
* The backend transaction-processing pipeline (server.py /
  ml_category_predictor.py) is not present in the repository snapshot; the
  definitions in the `Pipeline` namespace are modelled from the spec, as
  marked in their doc comments.
-/

namespace ApiUtils

/-- A JavaScript `Error` as produced by axios: a message, and, when the
server responded, the HTTP status of `error.response`; `responseStatus = none`
models a network error with no `error.response`. -/
structure JsError where
  message : String
  responseStatus : Option Nat
deriving Repr, DecidableEq

/-- From `src/frontend/src/utils/api.js` (`retryRequest`, lines 69-74):
an error is fatal (re-thrown without further attempts) when
`error.response && error.response.status >= 400 && error.response.status < 500`
and the status is neither 408 nor 429. -/
def nonRetryable (e : JsError) : Bool :=
  match e.responseStatus with
  | some st => decide (400 ≤ st) && decide (st < 500) && decide (st ≠ 408) && decide (st ≠ 429)
  | none => false

/-- Loop body of `retryRequest` from `src/frontend/src/utils/api.js`.
`f n` is the outcome of the n-th invocation of `requestFn` (attempts are
numbered from 1 as in the source); `remaining` is the number of loop
iterations left; `lastError` mirrors the `lastError` variable (`none`
models the initial `undefined`).  Returns the overall outcome — `.error`
carries the thrown value, which is `none` exactly when the final
`throw lastError` throws the initial `undefined` — paired with the number
of invocations of `requestFn` actually performed.  The `sleep(delay)`
between attempts has no effect on the result and is not modelled. -/
def retryAux (f : Nat → Except JsError α) :
    Nat → Nat → Option JsError → Except (Option JsError) α × Nat
  | 0, _, lastError => (Except.error lastError, 0)
  | remaining + 1, attempt, _ =>
    match f attempt with
    | Except.ok a => (Except.ok a, 1)
    | Except.error e =>
      if nonRetryable e then (Except.error (some e), 1)
      else
        let rest := retryAux f remaining (attempt + 1) (some e)
        (rest.1, rest.2 + 1)

/-- `retryRequest(requestFn, maxRetries = 3, delay = 2000)` from
`src/frontend/src/utils/api.js`: runs the loop `for attempt = 1..maxRetries`. -/
def retryRequest (f : Nat → Except JsError α) (maxRetries : Nat := 3) :
    Except (Option JsError) α × Nat :=
  retryAux f maxRetries 1 none

/-- An axios response, restricted to the field `healthCheck` reads:
`response.data?.message` (absent `data` or absent `message` both model
as `none`). -/
structure AxiosResponse where
  dataMessage : Option String
deriving Repr, DecidableEq

/-- `getBackendURL()` from `src/frontend/src/utils/api.js`:
priority 1 the env variable when it is truthy, not the literal string
`"undefined"`, and starts with `http`; priority 2 `window.location.origin`
when `window` exists; priority 3 the same origin again, else the
hard-coded fallback. `envUrl = none` models an unset variable and
`windowOrigin = none` models `typeof window === 'undefined'`. -/
def getBackendURL (envUrl : Option String) (windowOrigin : Option String) : String :=
  match envUrl with
  | some u =>
    if !u.isEmpty && u ≠ "undefined" && u.startsWith "http" then u
    else match windowOrigin with
      | some origin => origin
      | none => "https://luminaai.ai"
  | none =>
    match windowOrigin with
    | some origin => origin
    | none => "https://luminaai.ai"

/-- `API_BASE_URL = `${BACKEND_URL}/api`` from `src/frontend/src/utils/api.js`. -/
def apiBaseUrl (envUrl : Option String) (windowOrigin : Option String) : String :=
  getBackendURL envUrl windowOrigin ++ "/api"

/-- Result object of `healthCheck` from `src/frontend/src/utils/api.js`:
on success `{ success: true, url, message }`, on failure
`{ success: false, url, error }`. -/
structure HealthResult where
  success : Bool
  url : String
  message : Option String
  error : Option String
deriving Repr, DecidableEq

/-- `healthCheck()` from `src/frontend/src/utils/api.js` (lines 128-143).
`outcome` is the settled outcome of `api.get('/')`.  On success the message
is `response.data?.message || 'API is healthy'` (the `||` treats an empty
string as falsy); on failure the object carries `error.message`. -/
def healthCheck (envUrl windowOrigin : Option String)
    (outcome : Except JsError AxiosResponse) : HealthResult :=
  match outcome with
  | Except.ok resp =>
    { success := true
      url := apiBaseUrl envUrl windowOrigin
      message := some (match resp.dataMessage with
        | some s => if s.isEmpty then "API is healthy" else s
        | none => "API is healthy")
      error := none }
  | Except.error e =>
    { success := false
      url := apiBaseUrl envUrl windowOrigin
      message := none
      error := some e.message }

end ApiUtils

namespace Dashboard

/-- A receipt record as consumed by the dashboard statistics in
`src/frontend/src/App.js`; only the fields the statistics read are kept.
`total_amount` is the backend's string rendering (e.g. `"$15.92"`),
`none` models `null`/absent. -/
structure ReceiptRec where
  total_amount : Option String
  processing_status : String
deriving Repr, DecidableEq

/-- JavaScript truthiness of the string-or-null field `r.total_amount`:
`null`/`undefined` and the empty string are falsy, every other string is
truthy. -/
def jsTruthyStr : Option String → Bool
  | none => false
  | some s => !s.isEmpty

/-- `.replace(/[$,]/g, '')` from `src/frontend/src/App.js` line 198:
deletes every `'$'` and `','` character. -/
def stripCurrency (s : String) : String :=
  ⟨s.data.filter (fun c => c ≠ '$' && c ≠ ',')⟩

/-- JavaScript `x || 0` applied to the result of `parseFloat`: `NaN`
(modelled as `none`) and `0` both collapse to `0`. -/
def jsOrZero : Option Rat → Rat
  | none => 0
  | some v => if v = 0 then 0 else v

/-- `stats.totalAmount` from `src/frontend/src/App.js` lines 195-200:
filter the receipts whose `total_amount` is truthy, then reduce with
`sum + (parseFloat(r.total_amount.replace(/[$,]/g, '')) || 0)` starting
from 0.  `parse` models the JavaScript `parseFloat` builtin (`none` = NaN);
numbers are modelled as rationals. -/
def statsTotalAmount (parse : String → Option Rat) (rs : List ReceiptRec) : Rat :=
  (rs.filter (fun r => jsTruthyStr r.total_amount)).foldl
    (fun sum r => sum + jsOrZero (parse (stripCurrency (r.total_amount.getD ""))))
    0

/-- Specification-side restatement of the dashboard total (claim C9): the
sum, over exactly the receipts whose `total_amount` is non-null and
non-empty, of the parsed value of the field with `'$'` and `','` deleted,
an unparsable value contributing 0. -/
def specTotalAmount (parse : String → Option Rat) (rs : List ReceiptRec) : Rat :=
  ((rs.filter (fun r => match r.total_amount with
      | none => false
      | some s => !s.isEmpty)).map
    (fun r => (parse (stripCurrency (r.total_amount.getD ""))).getD 0)).sum

end Dashboard

namespace Frontend

/-- The category `SelectItem` values of the receipt-card / upload dialogs in
`src/frontend/src/App.js` (lines 504-512 and 668-676): nine entries. -/
def appCategoryItems : List String :=
  ["Uncategorized", "Travel", "Meals", "Office Supplies", "Entertainment",
   "Transportation", "Utilities", "Healthcare", "Other"]

/-- The category `SelectItem` values of `ReceiptCard` / `ReceiptDetailModal`
in the second frontend application file (lines 707-716 and 911-920): ten
entries, the first being the pseudo-category `Auto-Detect`. -/
def modalCategoryItems : List String :=
  ["Auto-Detect", "Meals & Entertainment", "Groceries", "Transportation & Fuel",
   "Office Supplies", "Shopping", "Utilities", "Healthcare", "Travel",
   "Uncategorized"]

/-- `receipt.merchant_name || 'Not detected'` (and likewise for
`receipt_date` and `total_amount`) in `ReceiptDetailModal`, second
frontend application file lines 860-898: a `null` field or an empty string
renders as the literal `Not detected`. -/
def renderOptField : Option String → String
  | none => "Not detected"
  | some s => if s.isEmpty then "Not detected" else s

end Frontend

namespace Pipeline

/-- Modelled from the spec: the ten fixed category labels of the backend
classifier (server.py / ml_category_predictor.py are absent from the
snapshot).  The labels are those the repository's test log
(`test_result.md`) reports for the trained model: "System supports 10
categories: Dining, Entertainment, Groceries, Healthcare, Shopping,
Subscriptions, Transfer, Transportation, Travel, Utilities". -/
def fixedCategories : List String :=
  ["Dining", "Entertainment", "Groceries", "Healthcare", "Shopping",
   "Subscriptions", "Transfer", "Transportation", "Travel", "Utilities"]

/-- The closed 11-label set of §3 of the spec: the ten fixed labels plus
`Uncategorized`. -/
def elevenLabels : List String := fixedCategories ++ ["Uncategorized"]

/-- Modelled from the spec (§4.2): an amount candidate tagged
`(priority, line_index, matched_value)`.  `rank` is the index into the
configured descending priority list (smaller rank = higher priority);
`value` is the matched amount in cents. -/
structure AmountCandidate where
  rank : Nat
  lineIdx : Nat
  value : Int
deriving Repr, DecidableEq

/-- Modelled from the spec (§4.2): candidate `a` strictly beats `b` when it
has higher priority (smaller rank); at equal priority when it lies closer
to the end of the document (greater line index); and at equal priority and
line index when its absolute value is larger. -/
def betterCand (a b : AmountCandidate) : Bool :=
  if a.rank ≠ b.rank then decide (a.rank < b.rank)
  else if a.lineIdx ≠ b.lineIdx then decide (b.lineIdx < a.lineIdx)
  else decide (b.value.natAbs < a.value.natAbs)

/-- Fold step: replace the current best candidate whenever the next one
strictly beats it (so the earliest maximal candidate is kept). -/
def pickBetter (cur next : AmountCandidate) : AmountCandidate :=
  if betterCand next cur then next else cur

/-- Modelled from the spec (§4.2): select, among all surviving candidates,
the maximal one under `betterCand`; `none` when no candidate survives. -/
def selectBest : List AmountCandidate → Option AmountCandidate
  | [] => none
  | c :: cs => some (cs.foldl pickBetter c)

/-- Modelled from the spec (§4.4): a calendar date as extracted by the
Date Extractor. -/
structure DateV where
  month : Nat
  day : Nat
  year : Nat
deriving Repr, DecidableEq

/-- Modelled from the spec (§4.4): disambiguation of a numeric date token
`a/b/y`.  Prefer the interpretation whose month field is ≤ 12; when both
fields are ≤ 12 default to month-first; when neither field can be a month
the token yields no date. -/
def parseNumericDate (a b y : Nat) : Option DateV :=
  if a ≤ 12 then some ⟨a, b, y⟩
  else if b ≤ 12 then some ⟨b, a, y⟩
  else none

/-- Split a character list at every occurrence of the separator. -/
def splitOnChar (sep : Char) : List Char → List (List Char)
  | [] => [[]]
  | c :: t =>
    if c = sep then [] :: splitOnChar sep t
    else
      match splitOnChar sep t with
      | [] => [[c]]
      | h :: r => (c :: h) :: r

/-- Parse a non-empty all-digit character run as a natural number. -/
def charsToNat? (l : List Char) : Option Nat :=
  if !l.isEmpty && l.all Char.isDigit then
    some (l.foldl (fun n c => n * 10 + (c.toNat - 48)) 0)
  else none

/-- Modelled from the spec (§4.4): parse a numeric slash-format date string
such as `"13/02/2024"` by splitting on `/` and disambiguating with
`parseNumericDate`. -/
def parseDateString (s : String) : Option DateV :=
  match (splitOnChar '/' s.data).map charsToNat? with
  | [some a, some b, some y] => parseNumericDate a b y
  | _ => none

end Pipeline

namespace Pipeline

/-- Clamp a rational to the unit interval. -/
def clamp01 (x : Rat) : Rat := max 0 (min 1 x)

/-- Substring test over character lists (used for keyword and label-pattern
matching). -/
def containsSub (hay needle : List Char) : Bool :=
  if needle.isPrefixOf hay then true
  else
    match hay with
    | [] => false
    | _ :: t => containsSub t needle

/-- Case-insensitive keyword occurrence: does `kw` occur in `text` after
upper-casing both? -/
def hasKeyword (text kw : String) : Bool :=
  containsSub text.toUpper.data kw.toUpper.data

/-- Modelled from the spec (§4.1): the Text Normalizer strips non-printable
characters and collapses runs of whitespace (line count and order are left
unchanged by the caller). -/
def normalizeLine (s : String) : String :=
  " ".intercalate (((⟨s.data.filter (fun c => 32 ≤ c.toNat)⟩ : String).split
    (fun c => c.isWhitespace)).filter (fun w => !w.isEmpty))

/-- Modelled from the spec (§4.2): the configured descending priority list
of amount label patterns; index = priority rank (smaller is better).  A
bare currency token at end of line ranks below all label patterns. -/
def amountPatterns : List String := ["GRAND TOTAL", "TOTAL", "AMOUNT DUE", "BALANCE"]

/-- Modelled from the spec (§4.2): clean a matched token — strip `$` and
thousands separators, then accept only `digits.dd` shapes (exactly one
decimal point, exactly two fractional digits, no non-digit residue).
All-digit tokens without a decimal point are conservatively rejected.
Returns the amount in cents. -/
def parseCents (s : String) : Option Int :=
  let t : String := ⟨s.data.filter (fun c => c ≠ '$' && c ≠ ',')⟩
  match t.splitOn "." with
  | [w, f] =>
    if w.data.all Char.isDigit && f.data.all Char.isDigit && f.length = 2 && !w.isEmpty then
      match w.toNat?, f.toNat? with
      | some wn, some fn => some (Int.ofNat (wn * 100 + fn))
      | _, _ => none
    else none
  | _ => none

/-- Modelled from the spec (§4.2): the last money-shaped token of a line,
if any. -/
def lineAmountToken (s : String) : Option Int :=
  ((s.split (fun c => c.isWhitespace)).filterMap parseCents).getLast?

/-- Modelled from the spec (§4.2): collect all amount candidates.  A line
containing a money token yields one candidate per matching label pattern,
plus a bare-token candidate at the lowest priority rank. -/
def findCandidates (lines : List (String × Nat)) : List AmountCandidate :=
  lines.flatMap (fun l =>
    match lineAmountToken l.1 with
    | none => []
    | some v =>
      (amountPatterns.enum.filterMap (fun p =>
        if hasKeyword l.1 p.2 then some ⟨p.1, l.2, v⟩ else none))
      ++ [⟨amountPatterns.length, l.2, v⟩])

end Pipeline

namespace Pipeline

/-- Modelled from the spec (§4.6): the ordered `(category, keyword-set)`
rules of the rule-based strategy; the categories are the ten configured
labels, with example keywords matching the merchants exercised by the
repository's test log (Starbucks→Dining, Walmart→Groceries,
Netflix→Entertainment, Shell→Transportation, CVS→Healthcare). -/
def defaultRules : List (String × List String) :=
  [("Dining", ["STARBUCKS", "RESTAURANT", "COFFEE", "CAFE", "MCDONALD", "PIZZA"]),
   ("Groceries", ["WALMART", "GROCERY", "SUPERMARKET", "KROGER"]),
   ("Entertainment", ["NETFLIX", "CINEMA", "MOVIE", "THEATER"]),
   ("Transportation", ["SHELL", "UBER", "LYFT", "GAS", "FUEL", "EXXON"]),
   ("Healthcare", ["CVS", "PHARMACY", "WALGREENS", "CLINIC"]),
   ("Shopping", ["AMAZON", "MALL", "TARGET", "STORE"]),
   ("Travel", ["HOTEL", "AIRLINE", "AIRBNB", "DELTA"]),
   ("Subscriptions", ["SPOTIFY", "SUBSCRIPTION", "MEMBERSHIP"]),
   ("Utilities", ["ELECTRIC", "WATER", "INTERNET", "UTILITY"]),
   ("Transfer", ["TRANSFER", "VENMO", "PAYPAL", "ZELLE"])]

/-- Fixed low confidence reported with `Uncategorized` (spec §4.6). -/
def uncategorizedConfidence : Rat := 1/5

/-- Confidence reported by a matching keyword rule, above the
`Uncategorized` floor (spec §4.6, §8 Scenario B). -/
def ruleConfidence : Rat := 7/10

/-- Modelled from the spec (§4.6): the rule-based strategy.  The ordered
rules are tested against merchant name and raw text, case-insensitive;
the first rule whose keyword set matches wins; if no rule matches the
category is `Uncategorized` with a fixed low confidence. -/
def ruleBasedPredict (rules : List (String × List String)) (text : String) :
    String × Rat :=
  match rules.find? (fun r => r.2.any (fun kw => hasKeyword text kw)) with
  | some r => (r.1, ruleConfidence)
  | none => ("Uncategorized", uncategorizedConfidence)

/-- Modelled from the spec (§4.5): the fixed-schema feature vector built
from the extracted fields and raw text (amount bucket, weekday flag,
per-category keyword-group flags, payment-method flag, hashed merchant
tokens), carrying its schema version. -/
structure FeatureVector where
  schemaVersion : Nat
  amountBucket : Nat
  weekday : Option Nat
  keywordFlags : List Bool
  paymentCard : Bool
  merchantTokenHashes : List Nat
deriving Repr, DecidableEq

/-- The feature-schema version this pipeline emits and the classifier
expects (spec §4.5). -/
def featureSchemaVersion : Nat := 1

/-- Modelled from the spec (§4.5): fixed amount-bucket boundaries; bucket 0
is the sentinel for a missing amount. -/
def amountBucketOf : Option Nat → Nat
  | none => 0
  | some c => if c < 1000 then 1 else if c < 5000 then 2 else if c < 20000 then 3 else 4

/-- Modelled from the spec (§4.5): build the feature vector; missing
amount/date/merchant are tolerated via sentinel values. -/
def buildFeatures (rawText : String) (merchant : Option String)
    (cents : Option Nat) (ts : Option Nat) : FeatureVector :=
  { schemaVersion := featureSchemaVersion
    amountBucket := amountBucketOf cents
    weekday := ts.map (fun t => t / 86400 % 7)
    keywordFlags := defaultRules.map (fun r => r.2.any (fun kw => hasKeyword rawText kw))
    paymentCard := hasKeyword rawText "CARD" || hasKeyword rawText "VISA"
    merchantTokenHashes :=
      ((merchant.getD "").split (fun c => c.isWhitespace)).map
        (fun w => w.toUpper.data.foldl (fun h c => (h * 31 + c.toNat) % 1000) 7) }

/-- Modelled from the spec (§4.6): the immutable trained model, as the
probability distribution it assigns to the ten fixed labels for a given
feature vector. -/
structure MLModel where
  probs : FeatureVector → List Rat

/-- Pick the pair with the largest second component (first maximum wins),
used for the arg-max over the label/probability pairs. -/
def maxBySnd (cur next : String × Rat) : String × Rat :=
  if cur.2 < next.2 then next else cur

/-- Modelled from the spec (§4.6): the ML strategy returns the label of
the largest probability, paired with that probability. -/
def mlPredict (m : MLModel) (fv : FeatureVector) : String × Rat :=
  match fixedCategories.zip (m.probs fv) with
  | [] => ("Uncategorized", 0)
  | p :: ps => ps.foldl maxBySnd p

/-- Categorization method recorded on the emitted transaction
(`"ml"` or `"rule_based"`). -/
inductive Method where
  | ml
  | rule_based
deriving Repr, DecidableEq

/-- Modelled from the spec (§4.6, §9): the classifier configuration fixed
at process startup: the model handle when the trained model loaded
successfully (`none` after a `ModelLoadError`), and the confidence
threshold for accepting an ML prediction (default ≈ 0.3). -/
structure Config where
  mlModel : Option MLModel
  threshold : Rat := 3/10

/-- Modelled from the spec (§4.6): arbitration.  When ML is available its
prediction is used only if its top probability reaches the threshold;
otherwise — and always, when the model did not load — the rule-based
strategy is used and `rule_based` is recorded. -/
def classify (cfg : Config) (fv : FeatureVector) (text : String) :
    String × Rat × Method :=
  match cfg.mlModel with
  | some m =>
    let p := mlPredict m fv
    if cfg.threshold ≤ p.2 then (p.1, p.2, Method.ml)
    else
      let r := ruleBasedPredict defaultRules text
      (r.1, r.2, Method.rule_based)
  | none =>
    let r := ruleBasedPredict defaultRules text
    (r.1, r.2, Method.rule_based)

end Pipeline

namespace Pipeline

/-- A raw OCR line: text, per-line confidence, line index (spec §3, §6). -/
structure RawLine where
  text : String
  conf : Rat
  idx : Nat
deriving Repr, DecidableEq

/-- The `RawInput` consumed from the OCR collaborator: ordered lines plus
an optional capture timestamp (spec §3). -/
structure RawInput where
  lines : List RawLine
  timestamp : Option Nat
deriving Repr, DecidableEq

/-- Modelled from the spec (§4.2): the Amount Extractor — candidates from
the normalized lines, then selection by `selectBest`; the amount is emitted
in cents (never negative).  Confidence 0 when no candidate survives. -/
def extractAmount (lines : List RawLine) : Option Nat × Rat :=
  match selectBest (findCandidates (lines.map (fun l => (normalizeLine l.text, l.idx)))) with
  | some c => (some c.value.natAbs, 4/5)
  | none => (none, 0)

/-- Modelled from the spec (§4.3): boilerplate filter — lines with no
alphabetic character (pure digits / punctuation / phone shapes) and header
words such as `RECEIPT` / `INVOICE`. -/
def isBoilerplate (s : String) : Bool :=
  s.data.all (fun c => !c.isAlpha) || hasKeyword s "RECEIPT" || hasKeyword s "INVOICE"

/-- Keep the line with the larger OCR confidence (first maximum wins). -/
def maxByConf (cur next : RawLine) : RawLine :=
  if cur.conf < next.conf then next else cur

/-- Modelled from the spec (§4.3): the Merchant Extractor — restrict to the
first five lines, discard boilerplate and empty lines, return the
highest-confidence survivor; `none` when every candidate is filtered out. -/
def extractMerchant (lines : List RawLine) : Option String × Rat :=
  let cands := (lines.take 5).filter
    (fun l => !isBoilerplate (normalizeLine l.text) && !(normalizeLine l.text).isEmpty)
  match cands with
  | [] => (none, 0)
  | c :: cs =>
    let best := cs.foldl maxByConf c
    (some (normalizeLine best.text), clamp01 best.conf)

/-- Modelled from the spec (§4.4): the Date Extractor — the first token of
any line that parses as a slash-format date under the month-first /
day-first disambiguation policy. -/
def extractDate (lines : List RawLine) : Option DateV × Rat :=
  match (lines.flatMap (fun l =>
      ((normalizeLine l.text).split (fun c => c.isWhitespace)).filterMap
        parseDateString)).head? with
  | some d => (some d, 7/10)
  | none => (none, 0)

/-- Decimal digits of a natural number, most significant first. -/
def natDigits (n : Nat) : List Char :=
  if h : n < 10 then [Char.ofNat (48 + n)]
  else natDigits (n / 10) ++ [Char.ofNat (48 + n % 10)]
decreasing_by
  exact Nat.div_lt_self (Nat.pos_of_ne_zero (by omega)) (by omega)

/-- Exactly two decimal digits of `n % 100`, most significant first. -/
def twoDigits (n : Nat) : List Char :=
  [Char.ofNat (48 + n / 10 % 10), Char.ofNat (48 + n % 10)]

/-- Modelled from the spec (§6): serialization of the amount for the
storage/API collaborator — `"$XX.XX"` from the cents value, or `null`. -/
def serializeAmount : Option Nat → Option String
  | none => none
  | some cents => some ⟨'$' :: (natDigits (cents / 100) ++ '.' :: twoDigits (cents % 100))⟩

/-- The emitted `Transaction` record (spec §3): extracted fields, category,
aggregate confidence, categorization method, raw text; `total_amount` is
carried in cents and additionally serialized for the API boundary. -/
structure Transaction where
  merchant_name : Option String
  total_amount : Option Nat
  total_amount_str : Option String
  receipt_date : Option DateV
  category : String
  confidence : Rat
  categorization_method : Method
  raw_text : String
deriving Repr, DecidableEq

/-- Modelled from the spec (§4.7): the Transaction Processor — sequence the
normalizer, the three independent extractors, the feature builder and the
classifier; a failed extraction leaves its field `None` at confidence 0 and
processing continues; the aggregate confidence is a weighted combination of
the field confidences and the classifier confidence, clamped to `[0,1]`. -/
def process (cfg : Config) (input : RawInput) : Transaction :=
  let rawText := "\n".intercalate (input.lines.map (fun l => normalizeLine l.text))
  let amount := extractAmount input.lines
  let merchant := extractMerchant input.lines
  let date := extractDate input.lines
  let fv := buildFeatures rawText merchant.1 amount.1 input.timestamp
  let classText := (merchant.1.getD "") ++ " " ++ rawText
  let cat := classify cfg fv classText
  { merchant_name := merchant.1
    total_amount := amount.1
    total_amount_str := serializeAmount amount.1
    receipt_date := date.1
    category := cat.1
    confidence := clamp01 ((amount.2 + merchant.2 + date.2 + cat.2.1) / 4)
    categorization_method := cat.2.2
    raw_text := rawText }

end Pipeline

namespace Pipeline

/-- A binary choice function always returns one of its two arguments, so a
left fold over it stays inside the initial element and the list. -/
theorem foldl_choice_mem {α : Type} {f : α → α → α}
    (hf : ∀ a b, f a b = a ∨ f a b = b) :
    ∀ (l : List α) (a : α), l.foldl f a ∈ a :: l := by
  intro l
  induction l with
  | nil => intro a; simp
  | cons x xs ih =>
    intro a
    have h := ih (f a x)
    rcases hf a x with h' | h' <;> rw [h'] at h <;>
      simp only [List.foldl_cons, h'] <;>
      rcases List.mem_cons.mp h with h'' | h'' <;> simp [h'']

/-- The strict "beats" relation of the amount selection, as a proposition:
higher priority first, then closer to the document end, then larger
absolute value. -/
def Beats (a b : AmountCandidate) : Prop :=
  a.rank < b.rank ∨
  (a.rank = b.rank ∧ b.lineIdx < a.lineIdx) ∨
  (a.rank = b.rank ∧ a.lineIdx = b.lineIdx ∧ b.value.natAbs < a.value.natAbs)

theorem betterCand_iff (a b : AmountCandidate) :
    betterCand a b = true ↔ Beats a b := by
  unfold betterCand Beats
  split_ifs with h1 h2 <;> simp only [decide_eq_true_eq] <;> omega

theorem betterCand_false_iff (a b : AmountCandidate) :
    betterCand a b = false ↔ ¬ Beats a b := by
  rw [← betterCand_iff]
  exact ⟨fun h => by simp [h], fun h => by simpa using h⟩

/-- `pickBetter` keeps the accumulator unless the next candidate strictly
beats it. -/
theorem pickBetter_eq_yes {a b : AmountCandidate} (h : betterCand b a = true) :
    pickBetter a b = b := by
  unfold pickBetter; simp [h]

theorem pickBetter_eq_no {a b : AmountCandidate} (h : betterCand b a = false) :
    pickBetter a b = a := by
  unfold pickBetter; simp [h]

/-- Left fold with `pickBetter` yields an element that no processed
element strictly beats. -/
theorem foldl_pickBetter_max :
    ∀ (l : List AmountCandidate) (a : AmountCandidate),
      ∀ d ∈ a :: l, betterCand d (l.foldl pickBetter a) = false := by
  intro l
  induction l with
  | nil =>
    intro a d hd
    simp only [List.mem_singleton] at hd
    subst hd
    simp only [List.foldl_nil, betterCand_false_iff]
    unfold Beats
    omega
  | cons x xs ih =>
    intro a d hd
    rw [List.foldl_cons]
    cases hb : betterCand x a with
    | true =>
      rw [pickBetter_eq_yes hb]
      have hres := ih x
      rcases List.mem_cons.mp hd with rfl | hd'
      · -- d = a: x replaced a because it beats it, and nothing beats the
        -- result starting from x; conclude by transitivity
        have hxr : betterCand x (xs.foldl pickBetter x) = false :=
          hres x (List.mem_cons_self x xs)
        rw [betterCand_false_iff] at hxr ⊢
        rw [betterCand_iff] at hb
        intro hdr
        apply hxr
        unfold Beats at hb hdr ⊢
        omega
      · rcases List.mem_cons.mp hd' with rfl | hd''
        · exact hres d (List.mem_cons_self d xs)
        · exact hres d (List.mem_cons_of_mem x hd'')
    | false =>
      rw [pickBetter_eq_no hb]
      have hres := ih a
      rcases List.mem_cons.mp hd with rfl | hd'
      · exact hres d (List.mem_cons_self d xs)
      · rcases List.mem_cons.mp hd' with rfl | hd''
        · -- d = x, which failed to beat a; a in turn is not beaten by the
          -- result, so by totality of the ordering neither is the result
          -- beaten by x
          have har : betterCand a (xs.foldl pickBetter a) = false :=
            hres a (List.mem_cons_self a xs)
          rw [betterCand_false_iff] at hb har ⊢
          intro hdr
          unfold Beats at hb har hdr
          omega
        · exact hres d (List.mem_cons_of_mem a hd'')

theorem pickBetter_choice (a b : AmountCandidate) :
    pickBetter a b = a ∨ pickBetter a b = b := by
  unfold pickBetter
  split_ifs <;> simp

end Pipeline

namespace Pipeline

/-- The selected amount candidate is one of the candidates, and no
candidate strictly beats it. -/
theorem selectBest_spec (l : List AmountCandidate) (c : AmountCandidate)
    (h : selectBest l = some c) :
    c ∈ l ∧ ∀ d ∈ l, betterCand d c = false := by
  cases l with
  | nil => simp [selectBest] at h
  | cons x xs =>
    simp only [selectBest, Option.some.injEq] at h
    subst h
    constructor
    · exact foldl_choice_mem pickBetter_choice xs x
    · exact foldl_pickBetter_max xs x

/-- `selectBest` returns no candidate exactly on the empty candidate
list. -/
theorem selectBest_none_iff (l : List AmountCandidate) :
    selectBest l = none ↔ l = [] := by
  cases l <;> simp [selectBest]

theorem clamp01_nonneg (x : Rat) : 0 ≤ clamp01 x := le_max_left 0 _

theorem clamp01_le_one (x : Rat) : clamp01 x ≤ 1 := by
  unfold clamp01
  apply max_le
  · norm_num
  · exact min_le_left 1 x

/-- Every character produced for a decimal digit `d < 10` is a digit
character. -/
theorem digitChar_isDigit (d : Nat) (h : d < 10) :
    (Char.ofNat (48 + d)).isDigit = true := by
  interval_cases d <;> decide

theorem natDigits_ne_nil (n : Nat) : natDigits n ≠ [] := by
  rw [natDigits]
  split <;> simp

theorem natDigits_all_digits (n : Nat) :
    ∀ c ∈ natDigits n, c.isDigit = true := by
  induction n using Nat.strong_induction_on with
  | _ n ih =>
    rw [natDigits]
    split
    next h =>
      intro c hc
      simp only [List.mem_singleton] at hc
      subst hc
      exact digitChar_isDigit n h
    next h =>
      intro c hc
      rcases List.mem_append.mp hc with hc' | hc'
      · exact ih (n / 10) (Nat.div_lt_self (by omega) (by omega)) c hc'
      · simp only [List.mem_singleton] at hc'
        subst hc'
        exact digitChar_isDigit (n % 10) (Nat.mod_lt n (by omega))

theorem twoDigits_digits (n : Nat) :
    (Char.ofNat (48 + n / 10 % 10)).isDigit = true ∧
    (Char.ofNat (48 + n % 10)).isDigit = true :=
  ⟨digitChar_isDigit _ (Nat.mod_lt _ (by omega)),
   digitChar_isDigit _ (Nat.mod_lt _ (by omega))⟩

/-- Shape of a serialized amount: `$`, a non-empty run of digits, `.`,
exactly two digits. -/
theorem serializeAmount_form (o : Option Nat) :
    serializeAmount o = none ∨
    ∃ ip d1 d2, serializeAmount o = some ⟨'$' :: (ip ++ '.' :: [d1, d2])⟩ ∧
      ip ≠ [] ∧ (∀ c ∈ ip, c.isDigit = true) ∧ d1.isDigit = true ∧ d2.isDigit = true := by
  cases o with
  | none => exact Or.inl rfl
  | some cents =>
    refine Or.inr ⟨natDigits (cents / 100), Char.ofNat (48 + cents % 100 / 10 % 10),
      Char.ofNat (48 + cents % 100 % 10), rfl, natDigits_ne_nil _,
      natDigits_all_digits _, (twoDigits_digits (cents % 100)).1,
      (twoDigits_digits (cents % 100)).2⟩

end Pipeline

namespace Pipeline

/-- Every rule of the configured rule list is labelled with one of the ten
fixed categories. -/
theorem defaultRules_labels :
    ∀ r ∈ defaultRules, r.1 ∈ fixedCategories := by
  decide

/-- The rule-based strategy only ever emits a configured label or
`Uncategorized`. -/
theorem ruleBasedPredict_mem (text : String) :
    (ruleBasedPredict defaultRules text).1 ∈ elevenLabels := by
  unfold ruleBasedPredict
  cases hf : defaultRules.find? (fun r => r.2.any (fun kw => hasKeyword text kw)) with
  | none =>
    simp only [elevenLabels]
    exact List.mem_append_right _ (by decide)
  | some r =>
    have hr : r ∈ defaultRules := List.mem_of_find?_eq_some hf
    exact List.mem_append_left _ (defaultRules_labels r hr)

theorem maxBySnd_choice (a b : String × Rat) :
    maxBySnd a b = a ∨ maxBySnd a b = b := by
  unfold maxBySnd
  split_ifs <;> simp

/-- The ML strategy's arg-max only ever emits one of the ten fixed labels
(or `Uncategorized` on an empty probability vector). -/
theorem mlPredict_mem (m : MLModel) (fv : FeatureVector) :
    (mlPredict m fv).1 ∈ elevenLabels := by
  unfold mlPredict
  cases hz : fixedCategories.zip (m.probs fv) with
  | nil =>
    simp only [elevenLabels]
    exact List.mem_append_right _ (by decide)
  | cons p ps =>
    have hmem : ps.foldl maxBySnd p ∈ p :: ps :=
      foldl_choice_mem maxBySnd_choice ps p
    rw [← hz] at hmem
    have := (List.of_mem_zip hmem).1
    exact List.mem_append_left _ this

/-- Arbitration only ever emits a label of the closed eleven-label set. -/
theorem classify_mem (cfg : Config) (fv : FeatureVector) (text : String) :
    (classify cfg fv text).1 ∈ elevenLabels := by
  unfold classify
  cases cfg.mlModel with
  | none => exact ruleBasedPredict_mem text
  | some m =>
    dsimp only
    split_ifs with h
    · exact mlPredict_mem m fv
    · exact ruleBasedPredict_mem text

/-- When the model did not load, arbitration records `rule_based`. -/
theorem classify_method_of_none (cfg : Config) (fv : FeatureVector)
    (text : String) (h : cfg.mlModel = none) :
    (classify cfg fv text).2.2 = Method.rule_based := by
  unfold classify
  rw [h]

/-- The emitted category of the whole pipeline is always in the closed
eleven-label set; shared by the invariants claims. -/
theorem process_category_mem (cfg : Config) (input : RawInput) :
    (process cfg input).category ∈ elevenLabels := by
  unfold process
  exact classify_mem cfg _ _

/-- The pipeline's aggregate confidence is always in the unit interval. -/
theorem process_confidence_bounds (cfg : Config) (input : RawInput) :
    0 ≤ (process cfg input).confidence ∧ (process cfg input).confidence ≤ 1 := by
  unfold process
  exact ⟨clamp01_nonneg _, clamp01_le_one _⟩

end Pipeline

namespace ApiUtils

/-- The retry loop performs at most `remaining` invocations. -/
theorem retryAux_count_le {α : Type} (f : Nat → Except JsError α) :
    ∀ (remaining attempt : Nat) (le : Option JsError),
      (retryAux f remaining attempt le).2 ≤ remaining := by
  intro remaining
  induction remaining with
  | zero => intro attempt le; simp [retryAux]
  | succ r ih =>
    intro attempt le
    unfold retryAux
    cases f attempt with
    | ok a => simp
    | error e =>
      dsimp only
      split_ifs with h
      · simp
      · simpa using Nat.succ_le_succ (ih (attempt + 1) (some e))

/-- A non-retryable failure at attempt `k` (all earlier attempts being
retryable failures) settles the loop with that error after exactly `k`
invocations counted from `attempt`. -/
theorem retryAux_fatal {α : Type} (f : Nat → Except JsError α) :
    ∀ (remaining attempt : Nat) (le : Option JsError) (k : Nat) (e : JsError),
      attempt ≤ k → k < attempt + remaining →
      f k = Except.error e → nonRetryable e = true →
      (∀ j, attempt ≤ j → j < k →
        ∃ e', f j = Except.error e' ∧ nonRetryable e' = false) →
      retryAux f remaining attempt le = (Except.error (some e), k - attempt + 1) := by
  intro remaining
  induction remaining with
  | zero => intro attempt le k e h1 h2 _ _ _; omega
  | succ r ih =>
    intro attempt le k e h1 h2 hk hnr hprev
    rcases Nat.eq_or_lt_of_le h1 with rfl | hlt
    · unfold retryAux
      rw [hk]
      simp [hnr]
    · obtain ⟨e', he', hre'⟩ := hprev attempt (le_refl _) hlt
      unfold retryAux
      rw [he']
      dsimp only
      rw [hre']
      simp only [Bool.false_eq_true, if_false]
      have := ih (attempt + 1) (some e') k e hlt (by omega) hk hnr
        (fun j hj1 hj2 => hprev j (by omega) hj2)
      rw [this]
      simp only [Prod.mk.injEq, true_and]
      omega

/-- When every attempt in the window fails retryably, the loop exhausts all
`remaining` invocations and settles with the error of the last attempt. -/
theorem retryAux_all_fail {α : Type} (f : Nat → Except JsError α) :
    ∀ (remaining attempt : Nat) (le : Option JsError) (e : JsError),
      1 ≤ remaining →
      (∀ j, attempt ≤ j → j < attempt + remaining →
        ∃ e', f j = Except.error e' ∧ nonRetryable e' = false) →
      f (attempt + remaining - 1) = Except.error e →
      retryAux f remaining attempt le = (Except.error (some e), remaining) := by
  intro remaining
  induction remaining with
  | zero => intro _ _ _ h; omega
  | succ r ih =>
    intro attempt le e _ hall hlast
    obtain ⟨e', he', hre'⟩ := hall attempt (le_refl _) (by omega)
    unfold retryAux
    rw [he']
    dsimp only
    rw [hre']
    simp only [Bool.false_eq_true, if_false]
    cases r with
    | zero =>
      have : attempt + 1 - 1 = attempt := by omega
      rw [this] at hlast
      rw [hlast] at he'
      cases he'
      simp [retryAux]
    | succ r' =>
      have := ih (attempt + 1) (some e') e (by omega)
        (fun j hj1 hj2 => hall j (by omega) (by omega))
        (by rw [show attempt + 1 + (r' + 1) - 1 = attempt + (r' + 1 + 1) - 1 by omega]; exact hlast)
      rw [this]

end ApiUtils

namespace Dashboard

/-- JavaScript `x || 0` agrees with `Option.getD 0` on parse results. -/
theorem jsOrZero_eq_getD (o : Option Rat) : jsOrZero o = o.getD 0 := by
  cases o with
  | none => rfl
  | some v =>
    unfold jsOrZero
    dsimp only [Option.getD]
    split_ifs with h
    · exact h.symm
    · rfl

/-- Reducing with `sum + g x` from an initial value is the initial value
plus the sum of the mapped list. -/
theorem foldl_add_eq_sum {α : Type} (g : α → Rat) :
    ∀ (l : List α) (init : Rat),
      l.foldl (fun s x => s + g x) init = init + (l.map g).sum := by
  intro l
  induction l with
  | nil => intro init; simp
  | cons x xs ih =>
    intro init
    simp only [List.foldl_cons, List.map_cons, List.sum_cons, ih]
    ring

end Dashboard

namespace Claims

/-- C1 (counterexample): the category values assignable through the
repository's own UI dropdowns do not form one single fixed closed set of
11 labels: the receipt-detail modal offers `Meals & Entertainment` and the
pseudo-category `Auto-Detect`, neither of which is in the eleven-label set,
and the two dropdown lists jointly contain 14 distinct values. -/
theorem C1_counterexample :
    "Meals & Entertainment" ∈ Frontend.modalCategoryItems ∧
    "Meals & Entertainment" ∉ Pipeline.elevenLabels ∧
    "Auto-Detect" ∈ Frontend.modalCategoryItems ∧
    "Auto-Detect" ∉ Pipeline.elevenLabels ∧
    (Frontend.appCategoryItems ++ Frontend.modalCategoryItems).dedup.length = 14 := by
  decide

/-- C1 (amended): for every processed input the pipeline's emitted
`category` is a member of the fixed eleven-label set (ten fixed labels
plus `Uncategorized`); the frontend dropdowns, however, expose a different
and larger label vocabulary, so the closed set holds for pipeline-emitted
transactions, not for every category a stored transaction can carry. -/
theorem C1_category_closed_set (cfg : Pipeline.Config) (input : Pipeline.RawInput) :
    (Pipeline.process cfg input).category ∈ Pipeline.elevenLabels :=
  Pipeline.process_category_mem cfg input

/-- C2: if the trained model failed to load at startup (`mlModel = none`
in the startup configuration), every transaction processed under that
configuration records `rule_based` as its categorization method. -/
theorem C2_rule_based_when_model_missing (cfg : Pipeline.Config)
    (input : Pipeline.RawInput) (h : cfg.mlModel = none) :
    (Pipeline.process cfg input).categorization_method = Pipeline.Method.rule_based := by
  unfold Pipeline.process
  exact Pipeline.classify_method_of_none cfg _ _ h

theorem C2_witness :
    (Pipeline.process ⟨none, 3/10⟩ ⟨[], none⟩).categorization_method
      = Pipeline.Method.rule_based :=
  C2_rule_based_when_model_missing ⟨none, 3/10⟩ ⟨[], none⟩ rfl

/-- C3: the Amount Extractor's selection returns one of the surviving
candidates, and no candidate beats it under the documented ordering:
higher label-pattern priority first, then greater line index (closer to
the document end), then larger absolute value. -/
theorem C3_amount_tie_breaking (l : List Pipeline.AmountCandidate)
    (c : Pipeline.AmountCandidate) (h : Pipeline.selectBest l = some c) :
    c ∈ l ∧ ∀ d ∈ l, ¬ Pipeline.Beats d c := by
  obtain ⟨hm, hmax⟩ := Pipeline.selectBest_spec l c h
  exact ⟨hm, fun d hd => (Pipeline.betterCand_false_iff d c).mp (hmax d hd)⟩

theorem C3_witness :
    (⟨0, 3, 2000⟩ : Pipeline.AmountCandidate) ∈
        [(⟨1, 0, 1592⟩ : Pipeline.AmountCandidate), ⟨0, 3, 2000⟩, ⟨0, 1, 500⟩] ∧
    ∀ d ∈ [(⟨1, 0, 1592⟩ : Pipeline.AmountCandidate), ⟨0, 3, 2000⟩, ⟨0, 1, 500⟩],
      ¬ Pipeline.Beats d ⟨0, 3, 2000⟩ :=
  C3_amount_tie_breaking _ _ rfl

/-- C4: the numeric-date disambiguation policy: a token `a/b/y` with
`a ≤ 12` is parsed month-first; with `a > 12` and `b ≤ 12` it is parsed
day-first; and the string `"13/02/2024"` yields February 13, 2024. -/
theorem C4_date_disambiguation :
    (∀ a b y : Nat, a ≤ 12 → Pipeline.parseNumericDate a b y = some ⟨a, b, y⟩) ∧
    (∀ a b y : Nat, 12 < a → b ≤ 12 → Pipeline.parseNumericDate a b y = some ⟨b, a, y⟩) ∧
    Pipeline.parseDateString "13/02/2024" = some ⟨2, 13, 2024⟩ := by
  refine ⟨?_, ?_, ?_⟩
  · intro a b y h
    unfold Pipeline.parseNumericDate
    rw [if_pos h]
  · intro a b y h1 h2
    unfold Pipeline.parseNumericDate
    rw [if_neg (by omega), if_pos h2]
  · rfl

theorem C4_witness :
    Pipeline.parseNumericDate 2 13 2024 = some ⟨2, 13, 2024⟩ ∧
    Pipeline.parseNumericDate 13 2 2024 = some ⟨2, 13, 2024⟩ :=
  ⟨C4_date_disambiguation.1 2 13 2024 (by decide),
   C4_date_disambiguation.2.1 13 2 2024 (by decide) (by decide)⟩

end Claims

namespace Claims

/-- C5: the emitted `total_amount` is serialized exactly by
`serializeAmount`, and the serialization is `null` or a string of the form
`$<digits>.<two digits>` — in particular non-negative with exactly two
fractional digits. -/
theorem C5_amount_serialization (cfg : Pipeline.Config) (input : Pipeline.RawInput) :
    (Pipeline.process cfg input).total_amount_str
      = Pipeline.serializeAmount (Pipeline.process cfg input).total_amount ∧
    ((Pipeline.process cfg input).total_amount_str = none ∨
      ∃ ip d1 d2, (Pipeline.process cfg input).total_amount_str
          = some ⟨'$' :: (ip ++ '.' :: [d1, d2])⟩ ∧
        ip ≠ [] ∧ (∀ c ∈ ip, c.isDigit = true) ∧
        d1.isDigit = true ∧ d2.isDigit = true) := by
  have h : (Pipeline.process cfg input).total_amount_str
      = Pipeline.serializeAmount (Pipeline.process cfg input).total_amount := rfl
  refine ⟨h, ?_⟩
  rw [h]
  exact Pipeline.serializeAmount_form _

/-- C6: the pipeline is deterministic — two invocations on the same
`RawInput` under the same startup configuration (the same model handle and
threshold) produce identical `Transaction` records. -/
theorem C6_determinism (cfg : Pipeline.Config) (i1 i2 : Pipeline.RawInput)
    (h : i1 = i2) :
    Pipeline.process cfg i1 = Pipeline.process cfg i2 := by
  rw [h]

theorem C6_witness :
    Pipeline.process ⟨none, 3/10⟩ ⟨[], none⟩ = Pipeline.process ⟨none, 3/10⟩ ⟨[], none⟩ :=
  C6_determinism ⟨none, 3/10⟩ ⟨[], none⟩ ⟨[], none⟩ rfl

/-- C7 (counterexample): the user-visible rendering of a missing field is
the literal `Not detected` (capital N), not the claimed text
`not detected`. -/
theorem C7_counterexample :
    Frontend.renderOptField none = "Not detected" ∧
    "Not detected" ≠ "not detected" := by
  exact ⟨rfl, by decide⟩

/-- C7 (amended): a missing (`null`) merchant/date/amount field renders as
the text `Not detected` — the `||` in the source also sends an empty
string to the same literal; a present non-empty field renders as its
value; and every pipeline-emitted Transaction has a populated category (a
member of the eleven-label set, at minimum `Uncategorized`) and a
populated confidence in `[0,1]`. -/
theorem C7_field_rendering :
    Frontend.renderOptField none = "Not detected" ∧
    Frontend.renderOptField (some "") = "Not detected" ∧
    (∀ s : String, s.isEmpty = false → Frontend.renderOptField (some s) = s) ∧
    (∀ (cfg : Pipeline.Config) (input : Pipeline.RawInput),
      (Pipeline.process cfg input).category ∈ Pipeline.elevenLabels ∧
      0 ≤ (Pipeline.process cfg input).confidence ∧
      (Pipeline.process cfg input).confidence ≤ 1) := by
  refine ⟨rfl, rfl, ?_, ?_⟩
  · intro s h
    simp [Frontend.renderOptField, h]
  · intro cfg input
    exact ⟨Pipeline.process_category_mem cfg input,
      (Pipeline.process_confidence_bounds cfg input).1,
      (Pipeline.process_confidence_bounds cfg input).2⟩

theorem C7_witness :
    Frontend.renderOptField (some "Starbucks") = "Starbucks" :=
  C7_field_rendering.2.2.1 "Starbucks" (by decide)

end Claims

namespace Claims

/-- C8: `retryRequest` invokes the request function at most `maxRetries`
times (default 3); a non-retryable client error (status in `[400,500)`
other than 408 and 429) reached at attempt `k` after retryable failures is
rethrown immediately, after exactly `k` invocations; and when every
attempt fails retryably the error thrown is the one from the last
attempt. -/
theorem C8_retry_behavior :
    (∀ (α : Type) (f : Nat → Except ApiUtils.JsError α) (m : Nat),
      (ApiUtils.retryRequest f m).2 ≤ m) ∧
    (∀ (α : Type) (f : Nat → Except ApiUtils.JsError α),
      (ApiUtils.retryRequest f).2 ≤ 3) ∧
    (∀ (α : Type) (f : Nat → Except ApiUtils.JsError α) (m k : Nat)
        (e : ApiUtils.JsError),
      1 ≤ k → k ≤ m → f k = Except.error e → ApiUtils.nonRetryable e = true →
      (∀ j, 1 ≤ j → j < k →
        ∃ e', f j = Except.error e' ∧ ApiUtils.nonRetryable e' = false) →
      ApiUtils.retryRequest f m = (Except.error (some e), k)) ∧
    (∀ (α : Type) (f : Nat → Except ApiUtils.JsError α) (m : Nat)
        (e : ApiUtils.JsError),
      1 ≤ m →
      (∀ j, 1 ≤ j → j ≤ m →
        ∃ e', f j = Except.error e' ∧ ApiUtils.nonRetryable e' = false) →
      f m = Except.error e →
      ApiUtils.retryRequest f m = (Except.error (some e), m)) := by
  refine ⟨?_, ?_, ?_, ?_⟩
  · intro α f m
    exact ApiUtils.retryAux_count_le f m 1 none
  · intro α f
    exact ApiUtils.retryAux_count_le f 3 1 none
  · intro α f m k e h1 h2 hk hnr hprev
    unfold ApiUtils.retryRequest
    rw [ApiUtils.retryAux_fatal f m 1 none k e h1 (by omega) hk hnr hprev]
    simp only [Prod.mk.injEq, true_and]
    omega
  · intro α f m e h1 hall hlast
    unfold ApiUtils.retryRequest
    exact ApiUtils.retryAux_all_fail f m 1 none e h1
      (fun j hj1 hj2 => hall j hj1 (by omega))
      (by rw [show 1 + m - 1 = m by omega]; exact hlast)

theorem C8_witness :
    (ApiUtils.retryRequest
      (fun _ => (Except.error ⟨"boom", some 500⟩ : Except ApiUtils.JsError Nat)) 3).2 ≤ 3 ∧
    ApiUtils.retryRequest
        (fun j => (Except.error ⟨"e", some (if j = 2 then 404 else 500)⟩
          : Except ApiUtils.JsError Nat)) 3
      = (Except.error (some ⟨"e", some 404⟩), 2) ∧
    ApiUtils.retryRequest
        (fun _ => (Except.error ⟨"boom", some 500⟩ : Except ApiUtils.JsError Nat)) 3
      = (Except.error (some ⟨"boom", some 500⟩), 3) := by
  refine ⟨C8_retry_behavior.1 Nat _ 3, ?_, ?_⟩
  · apply C8_retry_behavior.2.2.1 Nat _ 3 2 ⟨"e", some 404⟩
      (by decide) (by decide) (by rfl) (by rfl)
    intro j hj1 hj2
    interval_cases j
    exact ⟨⟨"e", some 500⟩, rfl, rfl⟩
  · apply C8_retry_behavior.2.2.2 Nat _ 3 ⟨"boom", some 500⟩ (by decide)
      ?_ rfl
    intro j hj1 hj2
    exact ⟨⟨"boom", some 500⟩, rfl, rfl⟩

end Claims

namespace Claims

/-- C9: the dashboard statistic `stats.totalAmount` equals the sum, over
exactly those receipts whose `total_amount` is non-null and non-empty, of
the value obtained by deleting `$` and `,` and parsing, an unparsable
value contributing 0 — for every model of the `parseFloat` builtin. -/
theorem C9_dashboard_total (parse : String → Option Rat)
    (rs : List Dashboard.ReceiptRec) :
    Dashboard.statsTotalAmount parse rs = Dashboard.specTotalAmount parse rs := by
  unfold Dashboard.statsTotalAmount Dashboard.specTotalAmount
  have hsum := Dashboard.foldl_add_eq_sum
    (fun r : Dashboard.ReceiptRec =>
      Dashboard.jsOrZero (parse (Dashboard.stripCurrency (r.total_amount.getD ""))))
    (rs.filter (fun r => Dashboard.jsTruthyStr r.total_amount)) 0
  rw [hsum, zero_add]
  have hfil : (rs.filter (fun r => Dashboard.jsTruthyStr r.total_amount))
      = (rs.filter (fun r => match r.total_amount with
          | none => false
          | some s => !s.isEmpty)) := by
    apply List.filter_congr
    intro r _
    cases r.total_amount <;> rfl
  rw [hfil]
  congr 1
  apply List.map_congr_left
  intro r _
  exact Dashboard.jsOrZero_eq_getD _

/-- C10: `healthCheck` never throws — it returns a result object whose
`url` is `API_BASE_URL` for every outcome of the underlying GET request,
with `success = true` and a message on success, and `success = false`
carrying the error's message on failure. -/
theorem C10_healthCheck (envUrl windowOrigin : Option String)
    (outcome : Except ApiUtils.JsError ApiUtils.AxiosResponse) :
    (ApiUtils.healthCheck envUrl windowOrigin outcome).url
      = ApiUtils.apiBaseUrl envUrl windowOrigin ∧
    (∀ resp, outcome = Except.ok resp →
      (ApiUtils.healthCheck envUrl windowOrigin outcome).success = true ∧
      (ApiUtils.healthCheck envUrl windowOrigin outcome).message.isSome = true) ∧
    (∀ e, outcome = Except.error e →
      (ApiUtils.healthCheck envUrl windowOrigin outcome).success = false ∧
      (ApiUtils.healthCheck envUrl windowOrigin outcome).error = some e.message) := by
  refine ⟨?_, ?_, ?_⟩
  · cases outcome <;> rfl
  · rintro resp rfl
    exact ⟨rfl, rfl⟩
  · rintro e rfl
    exact ⟨rfl, rfl⟩

theorem C10_witness :
    ((ApiUtils.healthCheck none none (Except.error ⟨"boom", none⟩)).url
      = ApiUtils.apiBaseUrl none none) ∧
    ((ApiUtils.healthCheck none none (Except.error ⟨"boom", none⟩)).success = false) ∧
    ((ApiUtils.healthCheck none none (Except.error ⟨"boom", none⟩)).error = some "boom") ∧
    ((ApiUtils.healthCheck none none (Except.ok ⟨none⟩)).success = true) ∧
    ((ApiUtils.healthCheck none none (Except.ok ⟨none⟩)).message.isSome = true) :=
  ⟨(C10_healthCheck none none _).1,
   ((C10_healthCheck none none _).2.2 ⟨"boom", none⟩ rfl).1,
   ((C10_healthCheck none none _).2.2 ⟨"boom", none⟩ rfl).2,
   ((C10_healthCheck none none _).2.1 ⟨none⟩ rfl).1,
   ((C10_healthCheck none none _).2.1 ⟨none⟩ rfl).2⟩

end Claims
